import Mathlib

/-!
Shallow embedding of the working-set trim engine (`MemoryCleaner.run`) of the
RAM_MemoryCleaner repository, from its two source variants `app_V1.py` and
`app_V3.py`, together with proofs about the traces of OS interactions a run
performs.

The engine's interactions with the operating system (memory sampling, process
enumeration, `OpenProcess`, `EmptyWorkingSet`, `CloseHandle`) are modelled by
an environment `Env` that fixes the outcome of every OS call, and a run is
embedded as the list of observable OS events it performs in order, ending with
the emission of the `freed_bytes` figure through the completion signal.
-/

/-- Outcome of a foreign OS call made through the FFI: either a returned value
or a raised exception (which the engine's `try`/`except` blocks swallow). -/
inductive CallRes (α : Type) where
  | ok (v : α)
  | exn
  deriving DecidableEq, Repr

/-- One run's OS interaction outcomes: the two available-memory samples, the
enumerated process ids in order, and the result of each `OpenProcess` tier,
of `EmptyWorkingSet` on an opened handle, and of the self working-set trim.
For the open calls `ok true` means a non-null handle was returned, `ok false`
a null handle (refusal); `exn` means the call raised. `CloseHandle` returns a
status the engine ignores and does not raise, so it needs no outcome here. -/
structure Env where
  beforeAvail : Nat
  afterAvail : Nat
  pids : List Nat
  openFull : Nat → CallRes Bool
  openLimited : Nat → CallRes Bool
  trimWS : Nat → CallRes Bool
  selfTrim : CallRes Bool

/-- Observable events of one run, in program order: a memory sample, the
runtime garbage collection, the self working-set trim, an `OpenProcess`
attempt at a given access mask with its result (`none` = the call raised),
an `EmptyWorkingSet` call on the handle opened for a pid with its result,
a `CloseHandle` on that handle, and the final emission of `freed_bytes`. -/
inductive Event where
  | sample (v : Nat)
  | gcCollect
  | trimSelf (res : Option Bool)
  | openProc (access : Nat) (pid : Nat) (res : Option Bool)
  | trimProc (pid : Nat) (res : Option Bool)
  | closeProc (pid : Nat)
  | emit (freed : Int)
  deriving DecidableEq, Repr

namespace AppV1

/-- `PROCESS_QUERY_INFORMATION` from `app_V1.py`. -/
def PROCESS_QUERY_INFORMATION : Nat := 0x0400

/-- `PROCESS_SET_QUOTA` from `app_V1.py`. -/
def PROCESS_SET_QUOTA : Nat := 0x0100

/-- `PROCESS_QUERY_LIMITED_INFORMATION` from `app_V1.py`. -/
def PROCESS_QUERY_LIMITED_INFORMATION : Nat := 0x1000

/-- The first-tier access mask `PROCESS_QUERY_INFORMATION | PROCESS_SET_QUOTA`. -/
def fullAccess : Nat := Nat.lor PROCESS_QUERY_INFORMATION PROCESS_SET_QUOTA

/-- The second-tier access mask `PROCESS_QUERY_LIMITED_INFORMATION | PROCESS_SET_QUOTA`. -/
def limitedAccess : Nat := Nat.lor PROCESS_QUERY_LIMITED_INFORMATION PROCESS_SET_QUOTA

/-- Events of one iteration of the `for p in psutil.process_iter(...)` loop of
`MemoryCleaner.run` in `app_V1.py` for the enumerated `pid`:
pids 0 and 4 are skipped by `continue`; otherwise `OpenProcess` is tried with
full rights, then with limited rights only if the first returned null; if a
handle was obtained `EmptyWorkingSet` is called on it; an exception anywhere
in the `try` is swallowed; the `finally` closes the handle iff one was set. -/
def iterEvents (env : Env) (pid : Nat) : List Event :=
  if pid = 0 ∨ pid = 4 then
    []
  else
    match env.openFull pid with
    | CallRes.exn => [Event.openProc fullAccess pid none]
    | CallRes.ok true =>
        Event.openProc fullAccess pid (some true) ::
        (match env.trimWS pid with
         | CallRes.exn => [Event.trimProc pid none]
         | CallRes.ok b => [Event.trimProc pid (some b)]) ++
        [Event.closeProc pid]
    | CallRes.ok false =>
        Event.openProc fullAccess pid (some false) ::
        match env.openLimited pid with
        | CallRes.exn => [Event.openProc limitedAccess pid none]
        | CallRes.ok true =>
            Event.openProc limitedAccess pid (some true) ::
            (match env.trimWS pid with
             | CallRes.exn => [Event.trimProc pid none]
             | CallRes.ok b => [Event.trimProc pid (some b)]) ++
            [Event.closeProc pid]
        | CallRes.ok false => [Event.openProc limitedAccess pid (some false)]

/-- The `freed` value of `app_V1.py`: `freed = after - before;
if freed < 0: freed = 0`. -/
def freed (env : Env) : Int :=
  let f : Int := (env.afterAvail : Int) - (env.beforeAvail : Int)
  if f < 0 then 0 else f

/-- The self-trim event: `EmptyWorkingSet(GetCurrentProcess())` inside
`try`/`except Exception: pass`. -/
def selfTrimEvent (env : Env) : Event :=
  match env.selfTrim with
  | CallRes.exn => Event.trimSelf none
  | CallRes.ok b => Event.trimSelf (some b)

/-- Events of the whole enumeration loop, in enumeration order. -/
def loopEvents (env : Env) : List Event :=
  (env.pids.map (iterEvents env)).flatten

/-- The full event trace of `MemoryCleaner.run` in `app_V1.py`:
sample `before`, `gc.collect()`, self working-set trim, the per-process loop,
sample `after`, and `self.finished_with_freed.emit(int(freed))`. -/
def runEvents (env : Env) : List Event :=
  Event.sample env.beforeAvail ::
  Event.gcCollect ::
  selfTrimEvent env ::
  loopEvents env ++
  [Event.sample env.afterAvail, Event.emit (freed env)]

end AppV1

namespace AppV3

/-- `PROCESS_QUERY_INFORMATION` from `app_V3.py`. -/
def PROCESS_QUERY_INFORMATION : Nat := 0x0400

/-- `PROCESS_SET_QUOTA` from `app_V3.py`. -/
def PROCESS_SET_QUOTA : Nat := 0x0100

/-- `PROCESS_QUERY_LIMITED_INFORMATION` from `app_V3.py`. -/
def PROCESS_QUERY_LIMITED_INFORMATION : Nat := 0x1000

/-- The first-tier access mask `PROCESS_QUERY_INFORMATION | PROCESS_SET_QUOTA`. -/
def fullAccess : Nat := Nat.lor PROCESS_QUERY_INFORMATION PROCESS_SET_QUOTA

/-- The second-tier access mask `PROCESS_QUERY_LIMITED_INFORMATION | PROCESS_SET_QUOTA`. -/
def limitedAccess : Nat := Nat.lor PROCESS_QUERY_LIMITED_INFORMATION PROCESS_SET_QUOTA

/-- Events of one iteration of the `for p in psutil.process_iter(...)` loop of
`MemoryCleaner.run` in `app_V3.py` for the enumerated `pid` (lines 51-66). -/
def iterEvents (env : Env) (pid : Nat) : List Event :=
  if pid = 0 ∨ pid = 4 then
    []
  else
    match env.openFull pid with
    | CallRes.exn => [Event.openProc fullAccess pid none]
    | CallRes.ok true =>
        Event.openProc fullAccess pid (some true) ::
        (match env.trimWS pid with
         | CallRes.exn => [Event.trimProc pid none]
         | CallRes.ok b => [Event.trimProc pid (some b)]) ++
        [Event.closeProc pid]
    | CallRes.ok false =>
        Event.openProc fullAccess pid (some false) ::
        match env.openLimited pid with
        | CallRes.exn => [Event.openProc limitedAccess pid none]
        | CallRes.ok true =>
            Event.openProc limitedAccess pid (some true) ::
            (match env.trimWS pid with
             | CallRes.exn => [Event.trimProc pid none]
             | CallRes.ok b => [Event.trimProc pid (some b)]) ++
            [Event.closeProc pid]
        | CallRes.ok false => [Event.openProc limitedAccess pid (some false)]

/-- The `freed` value of `app_V3.py` (lines 69-71). -/
def freed (env : Env) : Int :=
  let f : Int := (env.afterAvail : Int) - (env.beforeAvail : Int)
  if f < 0 then 0 else f

/-- The self-trim event of `app_V3.py` (lines 46-49). -/
def selfTrimEvent (env : Env) : Event :=
  match env.selfTrim with
  | CallRes.exn => Event.trimSelf none
  | CallRes.ok b => Event.trimSelf (some b)

/-- Events of the whole enumeration loop, in enumeration order. -/
def loopEvents (env : Env) : List Event :=
  (env.pids.map (iterEvents env)).flatten

/-- The full event trace of `MemoryCleaner.run` in `app_V3.py` (lines 42-72). -/
def runEvents (env : Env) : List Event :=
  Event.sample env.beforeAvail ::
  Event.gcCollect ::
  selfTrimEvent env ::
  loopEvents env ++
  [Event.sample env.afterAvail, Event.emit (freed env)]

end AppV3

/-! ## Properties of event traces -/

/-- The result of an OS call as recorded in an event: `none` for a raised
exception, `some v` for a returned value. -/
def resOpt {α : Type} : CallRes α → Option α
  | CallRes.ok v => some v
  | CallRes.exn => none

/-- Is the event a memory sample? -/
def isSample : Event → Bool
  | Event.sample _ => true
  | _ => false

/-- Is the event the self working-set trim? -/
def isSelfTrim : Event → Bool
  | Event.trimSelf _ => true
  | _ => false

/-- Is the event the emission of the result? -/
def isEmit : Event → Bool
  | Event.emit _ => true
  | _ => false

/-- Is the event an `OpenProcess` attempt on `p` at access mask `a`? -/
def isOpenAt (a p : Nat) : Event → Bool
  | Event.openProc a2 q _ => a2 == a && q == p
  | _ => false

/-- Is the event an `EmptyWorkingSet` call on the handle opened for `p`? -/
def isTrimOf (p : Nat) : Event → Bool
  | Event.trimProc q _ => q == p
  | _ => false

/-- Is the event a `CloseHandle` on the handle opened for `p`? -/
def isCloseOf (p : Nat) : Event → Bool
  | Event.closeProc q => q == p
  | _ => false

/-- Is the event an `OpenProcess` attempt that acquired a non-null handle? -/
def isAcq : Event → Bool
  | Event.openProc _ _ (some true) => true
  | _ => false

/-- Does the event pass a system pseudo-process id (0 or 4) to Handle
Acquisition (`OpenProcess`) or to the Trimmer (`EmptyWorkingSet`)? -/
def targetsSystemPid : Event → Bool
  | Event.openProc _ q _ => q == 0 || q == 4
  | Event.trimProc q _ => q == 0 || q == 4
  | _ => false

/-- The values emitted through the completion signal, in order. -/
def emitted (l : List Event) : List Int :=
  l.filterMap (fun e => match e with | Event.emit v => some v | _ => none)

/-- Number of events in `l` satisfying `p`. -/
def countP (p : Event → Bool) (l : List Event) : Nat := (l.filter p).length

/-- Events following the first `CloseHandle` on the handle for `p`
(the empty list when no such close occurs). -/
def afterClose (p : Nat) : List Event → List Event
  | [] => []
  | e :: es => if e = Event.closeProc p then es else afterClose p es

/-- Open-handle counting for C10: starting from `some n` open handles, `none`
if at some event a handle is opened while one is already open, or a close
happens without exactly one open handle. -/
def stepH (n : Option Nat) (e : Event) : Option Nat :=
  match n, e with
  | none, _ => none
  | some n, Event.openProc _ _ (some true) => if n = 0 then some 1 else none
  | some n, Event.closeProc _ => if n = 1 then some 0 else none
  | some n, _ => some n

/-- Number of other-process handles open after trace `l`, starting from none
open; `none` when the at-most-one-open discipline was violated. -/
def handles (l : List Event) : Option Nat := l.foldl stepH (some 0)

/-- Everything a run does strictly between its two memory samples:
`gc.collect()`, the self working-set trim, and the per-process loop. -/
def midEvents (env : Env) : List Event :=
  Event.gcCollect :: AppV1.selfTrimEvent env :: AppV1.loopEvents env

/-- No `OpenProcess` call in `l` acquired a handle (every acquisition was
refused or raised). -/
def noAcquisitions (l : List Event) : Bool := l.all (fun e => !isAcq e)

/-- A concrete environment in which every acquisition is refused while
available memory rises by 100 bytes between the two samples. -/
def envAllRefused : Env where
  beforeAvail := 2000000000
  afterAvail := 2000000100
  pids := [1, 7, 42]
  openFull := fun _ => CallRes.ok false
  openLimited := fun _ => CallRes.ok false
  trimWS := fun _ => CallRes.ok true
  selfTrim := CallRes.ok true

/-- A concrete environment with one process that is opened at the first tier
and trimmed successfully. -/
def envOneProc : Env where
  beforeAvail := 1000
  afterAvail := 900
  pids := [7]
  openFull := fun _ => CallRes.ok true
  openLimited := fun _ => CallRes.ok false
  trimWS := fun _ => CallRes.ok true
  selfTrim := CallRes.ok true

/-- Same two memory samples as `envNoPids` but entirely different
enumeration, acquisition and trim outcomes. -/
def envOneProcAlt : Env where
  beforeAvail := 500
  afterAvail := 800
  pids := [0, 3, 9]
  openFull := fun _ => CallRes.exn
  openLimited := fun _ => CallRes.ok false
  trimWS := fun _ => CallRes.exn
  selfTrim := CallRes.exn

/-- A concrete environment with an empty process list and available memory
rising by 300 bytes between the two samples. -/
def envNoPids : Env where
  beforeAvail := 500
  afterAvail := 800
  pids := []
  openFull := fun _ => CallRes.ok false
  openLimited := fun _ => CallRes.ok false
  trimWS := fun _ => CallRes.ok false
  selfTrim := CallRes.ok false

/-! ## Helper lemmas -/

/-- The two variants define identical per-iteration behaviour. -/
theorem iterAgree : AppV1.iterEvents = AppV3.iterEvents := rfl

/-- The two variants define identical run traces. -/
theorem runAgree : ∀ env : Env, AppV1.runEvents env = AppV3.runEvents env :=
  fun _ => rfl

/-- The two variants compute the same `freed` value. -/
theorem freedAgree : AppV1.freed = AppV3.freed := rfl

/-- Exhaustive shapes of one loop iteration's events. -/
theorem iter_shape (env : Env) (pid : Nat) :
    ((pid = 0 ∨ pid = 4) ∧ AppV1.iterEvents env pid = []) ∨
    (¬(pid = 0 ∨ pid = 4) ∧
      (AppV1.iterEvents env pid = [Event.openProc AppV1.fullAccess pid none] ∨
       (∃ r, AppV1.iterEvents env pid =
          [Event.openProc AppV1.fullAccess pid (some true),
           Event.trimProc pid r, Event.closeProc pid]) ∨
       AppV1.iterEvents env pid =
          [Event.openProc AppV1.fullAccess pid (some false),
           Event.openProc AppV1.limitedAccess pid none] ∨
       (∃ r, AppV1.iterEvents env pid =
          [Event.openProc AppV1.fullAccess pid (some false),
           Event.openProc AppV1.limitedAccess pid (some true),
           Event.trimProc pid r, Event.closeProc pid]) ∨
       AppV1.iterEvents env pid =
          [Event.openProc AppV1.fullAccess pid (some false),
           Event.openProc AppV1.limitedAccess pid (some false)])) := by
  by_cases h : pid = 0 ∨ pid = 4
  · exact Or.inl ⟨h, by simp [AppV1.iterEvents, h]⟩
  · refine Or.inr ⟨h, ?_⟩
    unfold AppV1.iterEvents
    rw [if_neg h]
    cases hf : env.openFull pid with
    | exn => exact Or.inl rfl
    | ok b =>
      cases b with
      | true =>
        cases ht : env.trimWS pid with
        | exn => exact Or.inr (Or.inl ⟨none, rfl⟩)
        | ok c => exact Or.inr (Or.inl ⟨some c, rfl⟩)
      | false =>
        cases hl : env.openLimited pid with
        | exn => exact Or.inr (Or.inr (Or.inl rfl))
        | ok c =>
          cases c with
          | true =>
            cases ht : env.trimWS pid with
            | exn => exact Or.inr (Or.inr (Or.inr (Or.inl ⟨none, rfl⟩)))
            | ok d => exact Or.inr (Or.inr (Or.inr (Or.inl ⟨some d, rfl⟩)))
          | false => exact Or.inr (Or.inr (Or.inr (Or.inr rfl)))

/-- A property holding on every iteration's events holds on the loop trace. -/
theorem loop_all (env : Env) (P : Event → Prop)
    (h : ∀ pid, ∀ e ∈ AppV1.iterEvents env pid, P e) :
    ∀ e ∈ AppV1.loopEvents env, P e := by
  intro e he
  unfold AppV1.loopEvents at he
  rcases List.mem_flatten.mp he with ⟨s, hs, hes⟩
  rcases List.mem_map.mp hs with ⟨pid, _, rfl⟩
  exact h pid e hes

/-- No iteration emits a result. -/
theorem iter_no_emit (env : Env) (pid : Nat) :
    ∀ e ∈ AppV1.iterEvents env pid, isEmit e = false := by
  rcases iter_shape env pid with ⟨_, he⟩ | ⟨_, he | ⟨r, he⟩ | he | ⟨r, he⟩ | he⟩ <;>
    rw [he] <;> intro e hm <;> simp at hm <;>
    rcases hm with rfl | rfl | rfl | rfl <;> rfl

/-- No iteration samples memory. -/
theorem iter_no_sample (env : Env) (pid : Nat) :
    ∀ e ∈ AppV1.iterEvents env pid, isSample e = false := by
  rcases iter_shape env pid with ⟨_, he⟩ | ⟨_, he | ⟨r, he⟩ | he | ⟨r, he⟩ | he⟩ <;>
    rw [he] <;> intro e hm <;> simp at hm <;>
    rcases hm with rfl | rfl | rfl | rfl <;> rfl

/-- A list with no emit event contributes nothing to `emitted`. -/
theorem emitted_eq_nil (l : List Event) (h : ∀ e ∈ l, isEmit e = false) :
    emitted l = [] := by
  unfold emitted
  rw [List.filterMap_eq_nil_iff]
  intro e he
  have hne := h e he
  cases e <;> first | rfl | (simp [isEmit] at hne)

/-- `emitted` skips a non-emit head event. -/
theorem emitted_cons (e : Event) (l : List Event) (h : isEmit e = false) :
    emitted (e :: l) = emitted l := by
  unfold emitted
  cases e <;> first | rfl | (simp [isEmit] at h)

/-- `emitted` distributes over concatenation. -/
theorem emitted_append (l1 l2 : List Event) :
    emitted (l1 ++ l2) = emitted l1 ++ emitted l2 := by
  unfold emitted
  exact List.filterMap_append l1 l2 _

/-- The self-trim event is not an emission. -/
theorem isEmit_selfTrimEvent (env : Env) :
    isEmit (AppV1.selfTrimEvent env) = false := by
  unfold AppV1.selfTrimEvent
  cases env.selfTrim <;> rfl

/-- Exactly the single `freed` value is emitted by a run. -/
theorem emitted_run (env : Env) :
    emitted (AppV1.runEvents env) = [AppV1.freed env] := by
  have hloop : emitted (AppV1.loopEvents env) = [] :=
    emitted_eq_nil _ (loop_all env _ (iter_no_emit env))
  unfold AppV1.runEvents
  simp only [List.cons_append]
  rw [emitted_cons (Event.sample env.beforeAvail) _ rfl,
      emitted_cons Event.gcCollect _ rfl,
      emitted_cons (AppV1.selfTrimEvent env) _ (isEmit_selfTrimEvent env),
      emitted_append, hloop]
  rfl

/-- The `freed` value is the clamped sample delta. -/
theorem freed_eq_max (env : Env) :
    AppV1.freed env = max 0 ((env.afterAvail : Int) - (env.beforeAvail : Int)) := by
  unfold AppV1.freed
  rcases le_or_lt 0 ((env.afterAvail : Int) - (env.beforeAvail : Int)) with h | h
  · rw [if_neg (not_lt.mpr h), max_eq_right h]
  · rw [if_pos h, max_eq_left (le_of_lt h)]

/-! ## Claims -/

/-- C1: every run reports `freed_bytes = max(0, after - before)` of its two
available-memory samples — the exact difference when `after >= before`,
clamped to 0 when `after < before` — and the reported value is never
negative; this holds for both variants. -/
theorem c1_freed_is_clamped_delta (env : Env) :
    emitted (AppV1.runEvents env) =
      [max 0 ((env.afterAvail : Int) - (env.beforeAvail : Int))] ∧
    emitted (AppV3.runEvents env) =
      [max 0 ((env.afterAvail : Int) - (env.beforeAvail : Int))] ∧
    0 ≤ AppV1.freed env := by
  refine ⟨?_, ?_, ?_⟩
  · rw [emitted_run env, freed_eq_max env]
  · rw [← runAgree env, emitted_run env, freed_eq_max env]
  · rw [freed_eq_max env]; exact le_max_left _ _

/-- C8: the trim-engine cores of the two source variants are equivalent: for
the same sequence of OS interaction outcomes, `MemoryCleaner.run` of
`app_V1.py` and of `app_V3.py` perform the same event trace (hence the same
OS calls in the same order) and compute the same `freed` value. -/
theorem c8_variants_equivalent (env : Env) :
    AppV1.runEvents env = AppV3.runEvents env ∧
    AppV1.freed env = AppV3.freed env :=
  ⟨rfl, rfl⟩

/-- No iteration performs a self-trim. -/
theorem iter_no_selfTrim (env : Env) (pid : Nat) :
    ∀ e ∈ AppV1.iterEvents env pid, isSelfTrim e = false := by
  rcases iter_shape env pid with ⟨_, he⟩ | ⟨_, he | ⟨r, he⟩ | he | ⟨r, he⟩ | he⟩ <;>
    rw [he] <;> intro e hm <;> simp at hm <;>
    rcases hm with rfl | rfl | rfl | rfl <;> rfl

/-- No iteration event targets pid 0 or pid 4. -/
theorem iter_no_system (env : Env) (pid : Nat) :
    ∀ e ∈ AppV1.iterEvents env pid, targetsSystemPid e = false := by
  rcases iter_shape env pid with ⟨_, he⟩ | ⟨h04, hsh⟩
  · rw [he]; intro e hm; simp at hm
  · push_neg at h04
    obtain ⟨h0, h4⟩ := h04
    rcases hsh with he | ⟨r, he⟩ | he | ⟨r, he⟩ | he <;> rw [he] <;>
      intro e hm <;> simp at hm <;>
      rcases hm with rfl | rfl | rfl | rfl <;>
      simp [targetsSystemPid, h0, h4]

/-- The self-trim event is a self-trim and targets no enumerated pid. -/
theorem selfTrimEvent_props (env : Env) :
    isSelfTrim (AppV1.selfTrimEvent env) = true ∧
    targetsSystemPid (AppV1.selfTrimEvent env) = false ∧
    isSample (AppV1.selfTrimEvent env) = false := by
  unfold AppV1.selfTrimEvent
  cases env.selfTrim <;> exact ⟨rfl, rfl, rfl⟩

/-- C2: during every run (of either variant), process ids 0 and 4 are never
passed to Handle Acquisition (`OpenProcess`) or the Trimmer
(`EmptyWorkingSet`): no event of the trace opens or trims pid 0 or pid 4;
the loop skips those records outright. -/
theorem c2_system_pids_never_targeted (env : Env) :
    (AppV1.runEvents env).all (fun e => !targetsSystemPid e) = true ∧
    (AppV3.runEvents env).all (fun e => !targetsSystemPid e) = true := by
  have h1 : (AppV1.runEvents env).all (fun e => !targetsSystemPid e) = true := by
    rw [List.all_eq_true]
    intro e he
    unfold AppV1.runEvents at he
    simp only [List.cons_append, List.mem_cons, List.mem_append,
      List.not_mem_nil, or_false] at he
    rcases he with rfl | rfl | rfl | he | rfl | rfl
    · rfl
    · rfl
    · simp [(selfTrimEvent_props env).2.1]
    · simp [loop_all env (fun e => targetsSystemPid e = false)
        (iter_no_system env) e he]
    · rfl
    · rfl
  exact ⟨h1, by rw [← runAgree env]; exact h1⟩

/-- C5: in every run — whatever the other processes' acquisition and trim
outcomes are — the engine's own process is trimmed: the trace starts with the
before-sample, then the runtime garbage collection, then the self working-set
trim, and only after that the enumeration loop; the self-trim occurs exactly
once per run. -/
theorem c5_self_trim_first (env : Env) :
    (AppV1.runEvents env).take 3 =
      [Event.sample env.beforeAvail, Event.gcCollect, AppV1.selfTrimEvent env] ∧
    isSelfTrim (AppV1.selfTrimEvent env) = true ∧
    (AppV1.runEvents env).drop 3 =
      AppV1.loopEvents env ++
        [Event.sample env.afterAvail, Event.emit (AppV1.freed env)] ∧
    countP isSelfTrim (AppV1.runEvents env) = 1 ∧
    AppV1.runEvents env = AppV3.runEvents env := by
  refine ⟨rfl, (selfTrimEvent_props env).1, rfl, ?_, rfl⟩
  have hloop : (AppV1.loopEvents env).filter isSelfTrim = [] := by
    rw [List.filter_eq_nil_iff]
    intro e he
    simp [loop_all env (fun e => isSelfTrim e = false) (iter_no_selfTrim env) e he]
  unfold countP AppV1.runEvents
  simp only [List.cons_append, List.filter_cons, List.filter_append, hloop,
    (selfTrimEvent_props env).1]
  rfl

/-- C7: within every run exactly two memory samples are taken: the trace is
the before-sample, then a sample-free middle (the garbage collection, the
self-trim and the whole per-process loop — i.e. all trimming), then the
after-sample followed only by the result emission; so the before-sample
strictly precedes all trimming and the after-sample strictly follows the
last trim attempt, with no other sampling mid-run. -/
theorem c7_two_samples_bound_run (env : Env) :
    AppV1.runEvents env =
      Event.sample env.beforeAvail ::
        (midEvents env ++
          [Event.sample env.afterAvail, Event.emit (AppV1.freed env)]) ∧
    (midEvents env).all (fun e => !isSample e) = true ∧
    countP isSample (AppV1.runEvents env) = 2 ∧
    AppV1.runEvents env = AppV3.runEvents env := by
  have hmid : ∀ e ∈ midEvents env, isSample e = false := by
    intro e he
    unfold midEvents at he
    simp only [List.mem_cons] at he
    rcases he with rfl | rfl | he
    · rfl
    · exact (selfTrimEvent_props env).2.2
    · exact loop_all env (fun e => isSample e = false) (iter_no_sample env) e he
  refine ⟨rfl, ?_, ?_, rfl⟩
  · rw [List.all_eq_true]
    intro e he
    simp [hmid e he]
  · have hfil : (midEvents env).filter isSample = [] := by
      rw [List.filter_eq_nil_iff]
      intro e he
      simp [hmid e he]
    have hrw : AppV1.runEvents env =
        Event.sample env.beforeAvail ::
          (midEvents env ++
            [Event.sample env.afterAvail, Event.emit (AppV1.freed env)]) := rfl
    unfold countP
    rw [hrw]
    simp only [List.filter_cons, List.filter_append, hfil]
    rfl

/-- C9: the emitted freed value depends only on the two memory samples: any
two runs with equal before-samples and equal after-samples emit equal values,
whatever processes were enumerated and whatever the acquisition and trim
outcomes were; and a run over an empty process list still emits
`max(0, after - before)`, which need not be 0. -/
theorem c9_emitted_depends_only_on_samples (env1 env2 : Env)
    (hb : env1.beforeAvail = env2.beforeAvail)
    (ha : env1.afterAvail = env2.afterAvail) :
    emitted (AppV1.runEvents env1) = emitted (AppV1.runEvents env2) ∧
    emitted (AppV3.runEvents env1) = emitted (AppV3.runEvents env2) ∧
    (env1.pids = [] →
      emitted (AppV1.runEvents env1) =
        [max 0 ((env1.afterAvail : Int) - (env1.beforeAvail : Int))]) := by
  have h12 : emitted (AppV1.runEvents env1) = emitted (AppV1.runEvents env2) := by
    rw [emitted_run, emitted_run]
    unfold AppV1.freed
    rw [hb, ha]
  refine ⟨h12, ?_, ?_⟩
  · rw [← runAgree env1, ← runAgree env2]
    exact h12
  · intro _
    rw [emitted_run, freed_eq_max]

/-- Witness for C9: the empty-enumeration run `envNoPids` and the run
`envOneProcAlt` share their two samples and emit the same single value 300,
which is not 0. -/
theorem c9_witness :
    (emitted (AppV1.runEvents envNoPids) = emitted (AppV1.runEvents envOneProcAlt) ∧
     emitted (AppV3.runEvents envNoPids) = emitted (AppV3.runEvents envOneProcAlt) ∧
     (envNoPids.pids = [] →
       emitted (AppV1.runEvents envNoPids) =
         [max 0 ((envNoPids.afterAvail : Int) - (envNoPids.beforeAvail : Int))])) ∧
    emitted (AppV1.runEvents envNoPids) = [300] :=
  ⟨c9_emitted_depends_only_on_samples envNoPids envOneProcAlt rfl rfl, by decide⟩

/-- C3: in every iteration of the per-process loop (either variant — the
variants agree), whenever acquisition succeeded at either access tier the
handle is closed exactly once on every exit path of that iteration — after a
successful trim, a failed trim, or an exception past acquisition — the
handle is never closed twice, and no trim of it occurs after the close. -/
theorem c3_handle_closed_exactly_once (env : Env) (pid : Nat) :
    ((AppV1.iterEvents env pid).any isAcq = true →
      countP (isCloseOf pid) (AppV1.iterEvents env pid) = 1) ∧
    countP (isCloseOf pid) (AppV1.iterEvents env pid) ≤ 1 ∧
    (afterClose pid (AppV1.iterEvents env pid)).all
      (fun e => !(isTrimOf pid e)) = true ∧
    AppV1.iterEvents = AppV3.iterEvents := by
  rcases iter_shape env pid with ⟨_, he⟩ | ⟨_, he | ⟨r, he⟩ | he | ⟨r, he⟩ | he⟩ <;>
    rw [he] <;>
    exact ⟨by simp [countP, isCloseOf, isAcq],
           by simp [countP, isCloseOf],
           by simp [afterClose, isTrimOf],
           rfl⟩

/-- Witness for C3: at `envOneProc`, pid 7, acquisition succeeds and the
close is performed exactly once. -/
theorem c3_witness :
    countP (isCloseOf 7) (AppV1.iterEvents envOneProc 7) = 1 :=
  (c3_handle_closed_exactly_once envOneProc 7).1 (by decide)

/-- The loop trace contains the first-tier open attempt of every enumerated
pid outside {0, 4}. -/
theorem loop_first_tier (env : Env) (pid : Nat) (h : ¬(pid = 0 ∨ pid = 4))
    (hmem : pid ∈ env.pids) :
    1 ≤ countP (isOpenAt AppV1.fullAccess pid) (AppV1.loopEvents env) := by
  have hhead : Event.openProc AppV1.fullAccess pid (resOpt (env.openFull pid)) ∈
      AppV1.iterEvents env pid := by
    unfold AppV1.iterEvents
    rw [if_neg h]
    cases hf : env.openFull pid with
    | exn => simp [resOpt]
    | ok b => cases b <;> simp [resOpt]
  have hmem2 : Event.openProc AppV1.fullAccess pid (resOpt (env.openFull pid)) ∈
      AppV1.loopEvents env := by
    unfold AppV1.loopEvents
    exact List.mem_flatten.mpr ⟨_, List.mem_map_of_mem _ hmem, hhead⟩
  have hfil : Event.openProc AppV1.fullAccess pid (resOpt (env.openFull pid)) ∈
      (AppV1.loopEvents env).filter (isOpenAt AppV1.fullAccess pid) := by
    rw [List.mem_filter]
    exact ⟨hmem2, by simp [isOpenAt]⟩
  exact List.length_pos.mpr (List.ne_nil_of_mem hfil)

/-- Exhaustive shapes of a non-skipped iteration, each tied to the
environment's acquisition outcomes. -/
theorem iter_shape_env (env : Env) (pid : Nat) (h : ¬(pid = 0 ∨ pid = 4)) :
    (env.openFull pid = CallRes.exn ∧
       AppV1.iterEvents env pid = [Event.openProc AppV1.fullAccess pid none]) ∨
    (env.openFull pid = CallRes.ok true ∧
       AppV1.iterEvents env pid =
         [Event.openProc AppV1.fullAccess pid (some true),
          Event.trimProc pid (resOpt (env.trimWS pid)),
          Event.closeProc pid]) ∨
    (env.openFull pid = CallRes.ok false ∧ env.openLimited pid = CallRes.exn ∧
       AppV1.iterEvents env pid =
         [Event.openProc AppV1.fullAccess pid (some false),
          Event.openProc AppV1.limitedAccess pid none]) ∨
    (env.openFull pid = CallRes.ok false ∧
       env.openLimited pid = CallRes.ok true ∧
       AppV1.iterEvents env pid =
         [Event.openProc AppV1.fullAccess pid (some false),
          Event.openProc AppV1.limitedAccess pid (some true),
          Event.trimProc pid (resOpt (env.trimWS pid)),
          Event.closeProc pid]) ∨
    (env.openFull pid = CallRes.ok false ∧
       env.openLimited pid = CallRes.ok false ∧
       AppV1.iterEvents env pid =
         [Event.openProc AppV1.fullAccess pid (some false),
          Event.openProc AppV1.limitedAccess pid (some false)]) := by
  unfold AppV1.iterEvents
  rw [if_neg h]
  cases hf : env.openFull pid with
  | exn => exact Or.inl ⟨rfl, rfl⟩
  | ok b =>
    cases b with
    | true =>
      refine Or.inr (Or.inl ⟨rfl, ?_⟩)
      cases ht : env.trimWS pid <;> rfl
    | false =>
      cases hl : env.openLimited pid with
      | exn => exact Or.inr (Or.inr (Or.inl ⟨rfl, rfl, rfl⟩))
      | ok c =>
        cases c with
        | true =>
          refine Or.inr (Or.inr (Or.inr (Or.inl ⟨rfl, rfl, ?_⟩)))
          cases ht : env.trimWS pid <;> rfl
        | false => exact Or.inr (Or.inr (Or.inr (Or.inr ⟨rfl, rfl, rfl⟩)))

/-- C4: for every enumerated process outside {0, 4}: the iteration's first
event is the first-tier `OpenProcess` (full query + set-quota rights), made
exactly once; the limited-query tier is requested exactly when the first
tier returned a null handle, and at most once; at most one trim call is made
(no retries); when both tiers refuse, the iteration makes no trim and no
close — the process is skipped — and the loop still reaches every
enumerated record outside {0, 4}; the variants agree. -/
theorem c4_tier_cascade (env : Env) (pid : Nat) (h0 : pid ≠ 0) (h4 : pid ≠ 4) :
    countP (isOpenAt AppV1.fullAccess pid) (AppV1.iterEvents env pid) = 1 ∧
    countP (isOpenAt AppV1.limitedAccess pid) (AppV1.iterEvents env pid) =
      (if env.openFull pid = CallRes.ok false then 1 else 0) ∧
    countP (isTrimOf pid) (AppV1.iterEvents env pid) ≤ 1 ∧
    (env.openFull pid = CallRes.ok false →
      env.openLimited pid = CallRes.ok false →
      countP (isTrimOf pid) (AppV1.iterEvents env pid) = 0 ∧
      countP (isCloseOf pid) (AppV1.iterEvents env pid) = 0) ∧
    (AppV1.iterEvents env pid).head? =
      some (Event.openProc AppV1.fullAccess pid (resOpt (env.openFull pid))) ∧
    (pid ∈ env.pids →
      1 ≤ countP (isOpenAt AppV1.fullAccess pid) (AppV1.loopEvents env)) ∧
    AppV1.iterEvents = AppV3.iterEvents := by
  have hguard : ¬(pid = 0 ∨ pid = 4) := by
    rintro (rfl | rfl)
    · exact h0 rfl
    · exact h4 rfl
  have hlf : (AppV1.limitedAccess == AppV1.fullAccess) = false := by decide
  have hfl : (AppV1.fullAccess == AppV1.limitedAccess) = false := by decide
  refine ⟨?_, ?_, ?_, ?_, ?_, loop_first_tier env pid hguard, rfl⟩ <;>
    rcases iter_shape_env env pid hguard with
      ⟨hf, he⟩ | ⟨hf, he⟩ | ⟨hf, hl, he⟩ | ⟨hf, hl, he⟩ | ⟨hf, hl, he⟩ <;>
    rw [he] <;>
    simp_all [countP, isOpenAt, isTrimOf, isCloseOf, resOpt, hlf, hfl]

/-- Witness for C4: at `envAllRefused`, pid 7, both tiers refuse, so exactly
one first-tier open, one limited-tier open, no trim and no close occur, and
the loop trace contains pid 7's first-tier attempt. -/
theorem c4_witness :
    countP (isOpenAt AppV1.fullAccess 7) (AppV1.iterEvents envAllRefused 7) = 1 ∧
    countP (isOpenAt AppV1.limitedAccess 7) (AppV1.iterEvents envAllRefused 7) =
      (if envAllRefused.openFull 7 = CallRes.ok false then 1 else 0) ∧
    countP (isTrimOf 7) (AppV1.iterEvents envAllRefused 7) ≤ 1 ∧
    (envAllRefused.openFull 7 = CallRes.ok false →
      envAllRefused.openLimited 7 = CallRes.ok false →
      countP (isTrimOf 7) (AppV1.iterEvents envAllRefused 7) = 0 ∧
      countP (isCloseOf 7) (AppV1.iterEvents envAllRefused 7) = 0) ∧
    (AppV1.iterEvents envAllRefused 7).head? =
      some (Event.openProc AppV1.fullAccess 7 (resOpt (envAllRefused.openFull 7))) ∧
    (7 ∈ envAllRefused.pids →
      1 ≤ countP (isOpenAt AppV1.fullAccess 7) (AppV1.loopEvents envAllRefused)) ∧
    AppV1.iterEvents = AppV3.iterEvents :=
  c4_tier_cascade envAllRefused 7 (by decide) (by decide)

/-- `stepH` ignores the self-trim event. -/
theorem stepH_selfTrim (env : Env) (n : Option Nat) :
    stepH n (AppV1.selfTrimEvent env) = n := by
  unfold AppV1.selfTrimEvent
  cases env.selfTrim <;> cases n <;> rfl

/-- Each loop iteration opens at most one handle at a time and closes it
before the iteration ends. -/
theorem iter_handles (env : Env) (pid : Nat) :
    (AppV1.iterEvents env pid).foldl stepH (some 0) = some 0 := by
  rcases iter_shape env pid with ⟨_, he⟩ | ⟨_, he | ⟨r, he⟩ | he | ⟨r, he⟩ | he⟩ <;>
    rw [he] <;> rfl

/-- Balanced handle discipline is preserved by flattening balanced blocks. -/
theorem flatten_handles (l : List Nat) (f : Nat → List Event)
    (h : ∀ p, (f p).foldl stepH (some 0) = some 0) :
    ((l.map f).flatten).foldl stepH (some 0) = some 0 := by
  induction l with
  | nil => rfl
  | cons a t ih =>
    rw [List.map_cons, List.flatten_cons, List.foldl_append, h a]
    exact ih

/-- A whole run respects the at-most-one-open-handle discipline and ends
with no handle open. -/
theorem run_handles (env : Env) : handles (AppV1.runEvents env) = some 0 := by
  have hloop : (AppV1.loopEvents env).foldl stepH (some 0) = some 0 := by
    unfold AppV1.loopEvents
    exact flatten_handles env.pids (AppV1.iterEvents env) (iter_handles env)
  unfold handles AppV1.runEvents
  simp only [List.cons_append]
  rw [List.foldl_cons, List.foldl_cons, List.foldl_cons,
      show stepH (some 0) (Event.sample env.beforeAvail) = some 0 from rfl,
      show stepH (some 0) Event.gcCollect = some 0 from rfl,
      stepH_selfTrim, List.foldl_append, hloop]
  rfl

/-- C10: at most one other-process handle is open at any point of a run: the
trace respects the open/close discipline (`stepH` never sees a second open
while one handle is open, nor a close without exactly one open handle) and
ends with zero handles open, so no handle survives its iteration; moreover a
limited-tier open is attempted only after the first tier returned a null
handle; the variants agree. -/
theorem c10_at_most_one_handle (env : Env) (pid : Nat) :
    handles (AppV1.runEvents env) = some 0 ∧
    ((AppV1.iterEvents env pid).any (isOpenAt AppV1.limitedAccess pid) = true →
      Event.openProc AppV1.fullAccess pid (some false) ∈
        AppV1.iterEvents env pid) ∧
    AppV1.runEvents = AppV3.runEvents := by
  refine ⟨run_handles env, ?_, rfl⟩
  have hfl : (AppV1.fullAccess == AppV1.limitedAccess) = false := by decide
  rcases iter_shape env pid with ⟨_, he⟩ | ⟨_, he | ⟨r, he⟩ | he | ⟨r, he⟩ | he⟩ <;>
    rw [he] <;> intro ha <;> simp [isOpenAt, hfl] at ha ⊢

/-- Witness for C10 at `envAllRefused`, pid 7: the limited tier was attempted
there, and indeed the first tier had returned a null handle. -/
theorem c10_witness :
    Event.openProc AppV1.fullAccess 7 (some false) ∈
      AppV1.iterEvents envAllRefused 7 :=
  (c10_at_most_one_handle envAllRefused 7).2.1 (by decide)

/-- C6 counterexample: in `envAllRefused` every acquisition is refused (zero
trimmable processes), yet the run emits 100, not 0: the claim that such a
run yields `freed_bytes = 0` is false of the code, which always reports the
clamped sample delta. -/
theorem c6_counterexample :
    noAcquisitions (AppV1.runEvents envAllRefused) = true ∧
    emitted (AppV1.runEvents envAllRefused) ≠ [0] ∧
    emitted (AppV1.runEvents envAllRefused) = [100] := by decide

/-- C6 (amended): every run is unfailable and delivers exactly one result:
whatever the acquisition, trim and self-trim outcomes — including every
acquisition being refused — the run completes and emits exactly one
`freed_bytes` value, namely `max(0, after - before)`, which is 0 whenever
the after-sample does not exceed the before-sample; no failure escalates to
an error. -/
theorem c6_run_unfailable (env : Env) :
    (emitted (AppV1.runEvents env)).length = 1 ∧
    emitted (AppV1.runEvents env) =
      [max 0 ((env.afterAvail : Int) - (env.beforeAvail : Int))] ∧
    (env.afterAvail ≤ env.beforeAvail →
      emitted (AppV1.runEvents env) = [0]) ∧
    AppV1.runEvents env = AppV3.runEvents env := by
  refine ⟨by rw [emitted_run]; rfl, by rw [emitted_run, freed_eq_max], ?_, rfl⟩
  intro h
  rw [emitted_run, freed_eq_max]
  have hle : (env.afterAvail : Int) - (env.beforeAvail : Int) ≤ 0 :=
    sub_nonpos.mpr (by exact_mod_cast h)
  rw [max_eq_left hle]

/-- Witness for C6 at `envOneProc`, whose after-sample 900 is below its
before-sample 1000: the run emits exactly [0]. -/
theorem c6_witness : emitted (AppV1.runEvents envOneProc) = [0] :=
  (c6_run_unfailable envOneProc).2.2.1 (by decide)
